import Mathlib

/-!
Shallow embedding of the resilient API access core of the qortal-mcp-server
repository: the token-bucket rate limiter (`qortal_mcp/rate_limiter.py`), the
node-failover pool, the request executor and the error classifier
(`qortal_mcp/qortal_api/client.py`).

Python floats and monotonic clock readings are modelled as rationals (`ℚ`);
dictionaries are modelled as association lists; network effects are modelled
by explicit outcome environments keyed by node URL; exceptions are modelled by
`Except` with an explicit error record.
-/

namespace QortalMcp

/-! ## Rate limiter (`qortal_mcp/rate_limiter.py`) -/

/-- `TokenBucket` state: `rate`/`capacity` from `__init__`, current `tokens`
and the `timestamp` of the last refill. -/
structure TokenBucket where
  rate : ℚ
  capacity : ℚ
  tokens : ℚ
  timestamp : ℚ
  deriving Repr, DecidableEq

/-- `TokenBucket.__init__`: starts full (`tokens = capacity`) with the current
clock reading as `timestamp`. -/
def TokenBucket.init (rate capacity now : ℚ) : TokenBucket :=
  { rate := rate, capacity := capacity, tokens := capacity, timestamp := now }

/-- `TokenBucket.consume(amount)` evaluated at clock reading `now`:
lazy refill clamped at `capacity`, then subtract `amount` and report
`true` iff `tokens >= amount` after the refill. -/
def TokenBucket.consume (b : TokenBucket) (now amount : ℚ) : TokenBucket × Bool :=
  let elapsed := now - b.timestamp
  let refilled := min b.capacity (b.tokens + elapsed * b.rate)
  if amount ≤ refilled then
    ({ b with timestamp := now, tokens := refilled - amount }, true)
  else
    ({ b with timestamp := now, tokens := refilled }, false)

/-- A sequence of `consume` calls, each with its own clock reading and amount;
returns the final bucket and the number of calls that returned `True`. -/
def TokenBucket.consumeTrace (b : TokenBucket) : List (ℚ × ℚ) → TokenBucket × Nat
  | [] => (b, 0)
  | (t, a) :: rest =>
    let step := b.consume t a
    let done := step.1.consumeTrace rest
    (done.1, (if step.2 then 1 else 0) + done.2)

/-- A trace is admissible from clock reading `t₀` when its clock readings are
non-decreasing starting at `t₀` and all amounts are non-negative. -/
def admissible (t₀ : ℚ) : List (ℚ × ℚ) → Bool
  | [] => true
  | (t, a) :: rest => decide (t₀ ≤ t) && decide (0 ≤ a) && admissible t rest

/-- `RateLimiter`: owns one `TokenBucket`; `__init__(rate_per_sec, burst)` uses
`burst if burst is not None else rate_per_sec` as the capacity.  `now` is the
clock reading taken inside `TokenBucket.__init__`. -/
structure RateLimiter where
  bucket : TokenBucket
  deriving Repr, DecidableEq

def RateLimiter.init (rate_per_sec : ℚ) (burst : Option ℚ) (now : ℚ) : RateLimiter :=
  { bucket := TokenBucket.init rate_per_sec (burst.getD rate_per_sec) now }

/-- `RateLimiter.allow()`: delegate to `bucket.consume()` with the default
amount `1`. -/
def RateLimiter.allow (l : RateLimiter) (now : ℚ) : RateLimiter × Bool :=
  let step := l.bucket.consume now 1
  ({ bucket := step.1 }, step.2)

/-- Replace the binding of `k` in an association list (insert at the end when
absent), as Python dict assignment `d[k] = v` does. -/
def setKey {α : Type} (k : String) (v : α) : List (String × α) → List (String × α)
  | [] => [(k, v)]
  | (k', v') :: rest => if k' = k then (k, v) :: rest else (k', v') :: setKey k v rest

/-- `PerKeyRateLimiter` as written in `qortal_mcp/rate_limiter.py`: a shared
default `rate`/`burst` and a dict of per-key `RateLimiter`s.  Its `__init__`
accepts no per-key override table. -/
structure PerKeyRateLimiter where
  rate : ℚ
  burst : ℚ
  limiters : List (String × RateLimiter)
  deriving Repr, DecidableEq

def PerKeyRateLimiter.init (rate_per_sec : ℚ) (burst : Option ℚ) : PerKeyRateLimiter :=
  { rate := rate_per_sec, burst := burst.getD rate_per_sec, limiters := [] }

/-- `PerKeyRateLimiter.allow(key)`: look up the bucket for `key`; when absent,
create one with the shared `self.rate`/`self.burst` (the clock reading inside
`TokenBucket.__init__` is `tCreate`) and store it; then delegate to
`limiter.allow()` whose `consume` reads the clock again (`tConsume`). -/
def PerKeyRateLimiter.allow (l : PerKeyRateLimiter) (key : String) (tCreate tConsume : ℚ) :
    PerKeyRateLimiter × Bool :=
  match l.limiters.lookup key with
  | some lim =>
    let step := lim.allow tConsume
    ({ l with limiters := setKey key step.1 l.limiters }, step.2)
  | none =>
    let lim := RateLimiter.init l.rate (some l.burst) tCreate
    let step := lim.allow tConsume
    ({ l with limiters := setKey key step.1 l.limiters }, step.2)

/-- Modelled from the spec: the spec's `PerKeyLimiter` carries "an optional
override table (key → rate)" and `allow(key)` creates a missing bucket "using
the per-key override rate if configured, else the default rate/capacity".
This override table (the `per_tool` argument passed by `qortal_mcp/server.py`
and by `tests/test_rate_limiter.py`) is missing from the
`PerKeyRateLimiter` class in `qortal_mcp/rate_limiter.py`. -/
structure PerKeyRateLimiterSpec where
  rate : ℚ
  burst : ℚ
  per_tool : List (String × ℚ)
  limiters : List (String × RateLimiter)
  deriving Repr, DecidableEq

/-- Modelled from the spec: `allow(key)` with the per-key override rate used
for bucket creation when `key` is configured in the override table. -/
def PerKeyRateLimiterSpec.allow (l : PerKeyRateLimiterSpec) (key : String)
    (tCreate tConsume : ℚ) : PerKeyRateLimiterSpec × Bool :=
  match l.limiters.lookup key with
  | some lim =>
    let step := lim.allow tConsume
    ({ l with limiters := setKey key step.1 l.limiters }, step.2)
  | none =>
    let rate := (l.per_tool.lookup key).getD l.rate
    let lim := RateLimiter.init rate (some l.burst) tCreate
    let step := lim.allow tConsume
    ({ l with limiters := setKey key step.1 l.limiters }, step.2)

/-- The refill rate of the bucket stored for key `k`, if any. -/
def bucketRate (lims : List (String × RateLimiter)) (k : String) : Option ℚ :=
  (lims.lookup k).map (fun lim => lim.bucket.rate)

/-! ## Error taxonomy and classifier (`qortal_mcp/qortal_api/client.py`) -/

/-- The exception classes derived from `QortalApiError`; a bare
`QortalApiError` is the `generic` kind. -/
inductive ErrKind
  | invalidAddress
  | addressNotFound
  | nameNotFound
  | groupNotFound
  | unauthorized
  | nodeUnreachable
  | generic
  deriving Repr, DecidableEq

/-- One raised `QortalApiError`: its class, the safe user-facing message, and
the optional diagnostic `code` and `status_code` attributes. -/
structure QortalApiError where
  kind : ErrKind
  message : String
  code : Option String
  status_code : Option Nat
  deriving Repr, DecidableEq

/-- A JSON value that `isinstance(raw_error, (str, int))` accepts as the
`error` field: Python `bool` is a subclass of `int`, so JSON booleans pass
the check as well. -/
inductive PyScalar
  | str (s : String)
  | int (n : ℤ)
  | bool (b : Bool)
  deriving Repr, DecidableEq

/-- `s.upper()` (ASCII, which covers every string the classifier compares). -/
def upperStr (s : String) : String := ⟨s.data.map Char.toUpper⟩

/-- `s.lower()`. -/
def lowerStr (s : String) : String := ⟨s.data.map Char.toLower⟩

/-- Whether `needle` is a prefix of `hay`. -/
def isPrefixList : List Char → List Char → Bool
  | [], _ => true
  | _ :: _, [] => false
  | a :: as, b :: bs => a = b && isPrefixList as bs

/-- Whether `needle` occurs contiguously inside `hay`. -/
def isInfixList (needle : List Char) : List Char → Bool
  | [] => isPrefixList needle []
  | b :: bs => isPrefixList needle (b :: bs) || isInfixList needle bs

/-- Python `needle in hay` on strings. -/
def containsSub (hay needle : String) : Bool := isInfixList needle.data hay.data

/-- `normalized`: `str(error_code)` for ints (and hence bools, which are ints
in Python), `.upper()` for strings, `""` when the code is absent. -/
def normalizedCode : Option PyScalar → String
  | some (.int n) => toString n
  | some (.bool b) => if b then "True" else "False"
  | some (.str s) => upperStr s
  | none => ""

/-- The `signals` set: the normalized code and the upper-cased message, each
added only when non-empty. -/
def errorSignals (error_code : Option PyScalar) (message : Option String) : List String :=
  let normalized := normalizedCode error_code
  let message_upper := upperStr (message.getD "")
  (if normalized ≠ "" then [normalized] else []) ++
    (if message_upper ≠ "" then [message_upper] else [])

/-- `signals.intersection(set)` is non-empty. -/
def sigMatch (signals sigSet : List String) : Bool :=
  signals.any (fun s => sigSet.contains s)

def invalid_address_signals : List String :=
  ["INVALID_ADDRESS", "INVALID_QORTAL_ADDRESS", "INVALID_RECIPIENT", "102"]

def name_unknown_signals : List String := ["NAME_UNKNOWN", "401"]

def block_unknown_signals : List String := ["BLOCK_UNKNOWN", "BLOCK NOT FOUND"]

def invalid_asset_signals : List String := ["INVALID_ASSET_ID", "601"]

def unknown_signals : List String := ["ADDRESS_UNKNOWN", "UNKNOWN_ADDRESS", "124"]

def group_unknown_signals : List String := ["GROUP_UNKNOWN", "1101"]

def invalid_public_key_signals : List String := ["INVALID_PUBLIC_KEY"]

def invalid_data_signals : List String := ["INVALID_DATA"]

/-- The lowered message used for the substring checks. -/
def loweredMessage (message : Option String) : String := lowerStr (message.getD "")

/-- Guard of rule 1 (invalid address). -/
def ruleGuard1 (ec : Option PyScalar) (msg : Option String) : Bool :=
  sigMatch (errorSignals ec msg) invalid_address_signals ||
    containsSub (loweredMessage msg) "invalid address"

/-- Guard of rule 2 (name unknown). -/
def ruleGuard2 (ec : Option PyScalar) (msg : Option String) : Bool :=
  sigMatch (errorSignals ec msg) name_unknown_signals

/-- Guard of rule 3 (block unknown). -/
def ruleGuard3 (ec : Option PyScalar) (msg : Option String) : Bool :=
  sigMatch (errorSignals ec msg) block_unknown_signals ||
    containsSub (loweredMessage msg) "block unknown"

/-- Guard of rule 4 (invalid asset). -/
def ruleGuard4 (ec : Option PyScalar) (msg : Option String) : Bool :=
  sigMatch (errorSignals ec msg) invalid_asset_signals

/-- Guard of rule 5 (address unknown). -/
def ruleGuard5 (ec : Option PyScalar) (msg : Option String) : Bool :=
  sigMatch (errorSignals ec msg) unknown_signals ||
    containsSub (loweredMessage msg) "unknown address"

/-- Guard of rule 6 (group unknown). -/
def ruleGuard6 (ec : Option PyScalar) (msg : Option String) : Bool :=
  sigMatch (errorSignals ec msg) group_unknown_signals

/-- Guard of rule 7 (invalid public key). -/
def ruleGuard7 (ec : Option PyScalar) (msg : Option String) : Bool :=
  sigMatch (errorSignals ec msg) invalid_public_key_signals ||
    containsSub (loweredMessage msg) "invalid public key"

/-- Guard of the invalid-data rule that sits between rule 7 and the
status-404 fallback in `_map_error`. -/
def ruleGuardInvalidData (ec : Option PyScalar) (msg : Option String) : Bool :=
  sigMatch (errorSignals ec msg) invalid_data_signals ||
    containsSub (loweredMessage msg) "invalid data"

/-- Whether any of the classifier's first seven rules fires. -/
def matchesRules1to7 (ec : Option PyScalar) (msg : Option String) : Bool :=
  ruleGuard1 ec msg || ruleGuard2 ec msg || ruleGuard3 ec msg || ruleGuard4 ec msg ||
    ruleGuard5 ec msg || ruleGuard6 ec msg || ruleGuard7 ec msg

/-- `normalized or message_upper or None`: the diagnostic `code` attached to
the produced error. -/
def diagnosticCode (ec : Option PyScalar) (msg : Option String) : Option String :=
  let normalized := normalizedCode ec
  let message_upper := upperStr (msg.getD "")
  if normalized ≠ "" then some normalized
  else if message_upper ≠ "" then some message_upper
  else none

/-- `QortalApiClient._map_error`: the ordered rule cascade, first match wins. -/
def map_error (ec : Option PyScalar) (status_code : Nat) (msg : Option String) :
    QortalApiError :=
  let meta := diagnosticCode ec msg
  if ruleGuard1 ec msg then
    ⟨.invalidAddress, "Invalid Qortal address.", meta, some status_code⟩
  else if ruleGuard2 ec msg then
    ⟨.nameNotFound, "Name not found.", meta, some status_code⟩
  else if ruleGuard3 ec msg then
    ⟨.generic, "Block not found.", meta, some status_code⟩
  else if ruleGuard4 ec msg then
    ⟨.generic, "Asset not found.", meta, some status_code⟩
  else if ruleGuard5 ec msg then
    ⟨.addressNotFound, "Address not found on chain.", meta, some status_code⟩
  else if ruleGuard6 ec msg then
    ⟨.groupNotFound, "Group not found.", meta, some status_code⟩
  else if ruleGuard7 ec msg then
    ⟨.generic, "Invalid public key.", meta, some status_code⟩
  else if ruleGuardInvalidData ec msg then
    ⟨.generic, "Qortal API error.", meta, some status_code⟩
  else if status_code = 404 then
    ⟨.generic, "Resource not found.", meta, some status_code⟩
  else if status_code = 401 ∨ status_code = 403 then
    ⟨.unauthorized, "Unauthorized or API key required.", meta, some status_code⟩
  else
    ⟨.generic, "Qortal API error.", meta, some status_code⟩

/-- The classifier's first seven rules exactly as the spec's §4.3 lists them:
matching accepts the raw provider code (case-insensitive) or a
case-insensitive substring match against the free-text message.  Used only to
state claims about the spec's rule list; the code's guards
(`matchesRules1to7`) additionally put the whole upper-cased message into the
signal set and accept `BLOCK NOT FOUND` as a block signal. -/
def specRules1to7Match (ec : Option PyScalar) (msg : Option String) : Bool :=
  let code := normalizedCode ec
  let lowered := loweredMessage msg
  ["INVALID_ADDRESS", "INVALID_QORTAL_ADDRESS", "INVALID_RECIPIENT", "102"].contains code ||
    containsSub lowered "invalid address" ||
  ["NAME_UNKNOWN", "401"].contains code ||
  ["BLOCK_UNKNOWN"].contains code || containsSub lowered "block unknown" ||
  ["INVALID_ASSET_ID", "601"].contains code ||
  ["ADDRESS_UNKNOWN", "UNKNOWN_ADDRESS", "124"].contains code ||
    containsSub lowered "unknown address" ||
  ["GROUP_UNKNOWN", "1101"].contains code ||
  ["INVALID_PUBLIC_KEY"].contains code || containsSub lowered "invalid public key"

/-! ## Response processing (`QortalApiClient._process_response`) -/

/-- JSON values as decoded by `response.json()`. -/
inductive Json
  | obj (fields : List (String × Json))
  | arr (items : List Json)
  | str (s : String)
  | int (n : ℤ)
  | num (q : ℚ)
  | bool (b : Bool)
  | null

/-- An HTTP response that reached the client: its status, the result of
`response.json()` (`none` models a decoding `ValueError`) and `response.text`. -/
structure HttpResponse where
  status_code : Nat
  jsonBody : Option Json
  text : String

/-- A successful `_process_response` result: decoded JSON, or the raw body
text when JSON was not requested. -/
inductive RespValue
  | json (j : Json)
  | text (s : String)

def Json.isObj : Json → Bool
  | .obj _ => true
  | _ => false

/-- `data.get(k)` on a decoded JSON mapping. -/
def getField (fields : List (String × Json)) (k : String) : Option Json :=
  match fields with
  | [] => none
  | (k', v) :: rest => if k' = k then some v else getField rest k

/-- The `error` field when it is a string or an int (or a bool, which is an
int in Python). -/
def extractErrorField (data : Option Json) : Option PyScalar :=
  match data with
  | some (.obj fields) =>
    match getField fields "error" with
    | some (.str s) => some (.str s)
    | some (.int n) => some (.int n)
    | some (.bool b) => some (.bool b)
    | _ => none
  | _ => none

/-- The `message` field when it is a string. -/
def extractMessageField (data : Option Json) : Option String :=
  match data with
  | some (.obj fields) =>
    match getField fields "message" with
    | some (.str s) => some s
    | _ => none
  | _ => none

/-- `QortalApiClient._process_response`: 401 short-circuits to Unauthorized;
JSON is decoded when requested or when the status signals an error; a status
≥ 400 goes through `_map_error`; otherwise the value is returned after the
shape check. -/
def processResponse (resp : HttpResponse) (expect_dict expect_json : Bool) :
    Except QortalApiError RespValue :=
  if resp.status_code = 401 then
    .error ⟨.unauthorized, "Unauthorized or API key required.", none, some 401⟩
  else
    let data : Option Json :=
      if expect_json || decide (400 ≤ resp.status_code) then resp.jsonBody else none
    if 400 ≤ resp.status_code then
      .error (map_error (extractErrorField data) resp.status_code (extractMessageField data))
    else if !expect_json then
      .ok (.text resp.text)
    else
      match data with
      | none => .error ⟨.generic, "Unexpected response from node.", none, some resp.status_code⟩
      | some d =>
        if expect_dict && !d.isObj then
          .error ⟨.generic, "Unexpected response from node.", none, some resp.status_code⟩
        else
          .ok (.json d)

/-! ## Node pool (`NodePool`) -/

/-- `_NodeEntry`: the connection handle is modelled by an id allocated from a
fresh counter. -/
structure NodeEntry where
  base_url : String
  client : Option Nat
  last_failure : Option ℚ
  last_health_check : Option ℚ
  deriving Repr, DecidableEq

/-- `NodePool` state (the per-call HTTP timeouts are carried by the outcome
environments, not by the state). -/
structure NodePool where
  entries : List NodeEntry
  cooldown_seconds : ℚ
  primary_url : Option String
  health_check_path : Option String
  deriving Repr, DecidableEq

/-- `NodePool.__init__`. -/
def NodePool.init (nodes : List String) (cooldown_seconds : ℚ)
    (health_check_path : Option String) : NodePool :=
  { entries := nodes.map (fun u => ⟨u, none, none, none⟩),
    cooldown_seconds := cooldown_seconds,
    primary_url := nodes.head?,
    health_check_path := health_check_path }

/-- `NodePool._in_cooldown` with an explicit cooldown window. -/
def cooldownCheck (cooldown_seconds : ℚ) (e : NodeEntry) (now : ℚ) : Bool :=
  match e.last_failure with
  | none => false
  | some f => decide (now - f < cooldown_seconds)

def NodePool.in_cooldown (p : NodePool) (e : NodeEntry) (now : ℚ) : Bool :=
  cooldownCheck p.cooldown_seconds e now

/-- The loop body of `report_failure`: set `last_failure` on the first entry
whose `base_url` matches, then `break`. -/
def reportFailureList (u : String) (now : ℚ) : List NodeEntry → List NodeEntry
  | [] => []
  | e :: rest =>
    if e.base_url = u then { e with last_failure := some now } :: rest
    else e :: reportFailureList u now rest

/-- The loop body of `report_success`: clear `last_failure` on the first
entry whose `base_url` matches, then `break`. -/
def reportSuccessList (u : String) : List NodeEntry → List NodeEntry
  | [] => []
  | e :: rest =>
    if e.base_url = u then { e with last_failure := none } :: rest
    else e :: reportSuccessList u rest

def NodePool.report_failure (p : NodePool) (u : String) (now : ℚ) : NodePool :=
  { p with entries := reportFailureList u now p.entries }

def NodePool.report_success (p : NodePool) (u : String) : NodePool :=
  { p with entries := reportSuccessList u p.entries }

/-- `NodePool.is_trusted`: equality with the primary URL (`None` when no
nodes are configured never compares equal to a string). -/
def NodePool.is_trusted (p : NodePool) (u : String) : Bool :=
  match p.primary_url with
  | some primary => u = primary
  | none => false

/-- `NodePool.aclose`: close and drop every created client handle; returns
the handles closed by this call. -/
def NodePool.aclose (p : NodePool) : NodePool × List Nat :=
  ({ p with entries := p.entries.map (fun e => { e with client := none }) },
   p.entries.filterMap (fun e => e.client))

/-- Replace the entry at index `i` (out-of-range leaves the list unchanged),
mirroring an in-place attribute assignment on `self._entries[i]`. -/
def modifyAt {α : Type} : List α → Nat → (α → α) → List α
  | [], _, _ => []
  | x :: rest, 0, f => f x :: rest
  | x :: rest, n + 1, f => x :: modifyAt rest n f

/-- Outcome of one health probe request against a node. -/
inductive ProbeOutcome
  | transportError
  | response (status_code : Nat)
  deriving Repr, DecidableEq

/-- `NodePool._probe` acting on the entry at index `i`; `env` gives the
network outcome per node URL, `fresh` is the next client-handle id. -/
def NodePool.probe (p : NodePool) (env : String → ProbeOutcome) (now : ℚ)
    (i fresh : Nat) : NodePool × Nat × Bool :=
  match p.health_check_path with
  | none => (p, fresh, true)
  | some _ =>
    match p.entries.get? i with
    | none => (p, fresh, true)
    | some e =>
      let created :=
        if e.client = none then
          ({ p with entries := modifyAt p.entries i (fun x => { x with client := some fresh }) },
           fresh + 1)
        else (p, fresh)
      match env e.base_url with
      | .transportError => (created.1.report_failure e.base_url now, created.2, false)
      | .response s =>
        let p2 := { created.1 with
          entries := modifyAt created.1.entries i (fun x => { x with last_health_check := some now }) }
        if s < 400 then (p2.report_success e.base_url, created.2, true)
        else (p2.report_failure e.base_url now, created.2, false)

/-- One iteration of the `for entry in self._entries` loop of
`get_candidates`, acting on the entry at index `i`: skip it while in
cooldown, lazily create its client, probe it when it carries a failure mark
and a health-check path is configured, and produce its candidate pair when it
is admitted. -/
def candidateStep (env : String → ProbeOutcome) (now : ℚ) (p : NodePool) (i fresh : Nat) :
    NodePool × Nat × Option (Nat × String) :=
  match p.entries.get? i with
  | none => (p, fresh, none)
  | some e =>
    if p.in_cooldown e now then (p, fresh, none)
    else
      let created :=
        match e.client with
        | none =>
          ({ p with entries := modifyAt p.entries i (fun x => { x with client := some fresh }) },
           fresh + 1, fresh)
        | some h => (p, fresh, h)
      if e.last_failure.isSome && created.1.health_check_path.isSome then
        let probed := created.1.probe env now i created.2.1
        if probed.2.2 then (probed.1, probed.2.1, some (created.2.2, e.base_url))
        else (probed.1, probed.2.1, none)
      else (created.1, created.2.1, some (created.2.2, e.base_url))

/-- The `for entry in self._entries` loop of `get_candidates`, iterating over
entry indices; returns the mutated pool, the next fresh handle id, and the
candidate `(client, base_url)` pairs in order (the candidate produced by an
iteration is appended before the next entry is examined and never affects
later iterations). -/
def getCandidatesLoop (env : String → ProbeOutcome) (now : ℚ) :
    List Nat → NodePool → Nat → NodePool × Nat × List (Nat × String)
  | [], p, fresh => (p, fresh, [])
  | i :: rest, p, fresh =>
    let step := candidateStep env now p i fresh
    let tail := getCandidatesLoop env now rest step.1 step.2.1
    match step.2.2 with
    | some c => (tail.1, tail.2.1, c :: tail.2.2)
    | none => tail

/-- `NodePool.get_candidates`: run the loop over every entry; when it selects
nothing and nodes are configured, force-include the primary (`entries[0]`). -/
def NodePool.get_candidates (p : NodePool) (env : String → ProbeOutcome) (now : ℚ)
    (fresh : Nat) : NodePool × Nat × List (Nat × String) :=
  let looped := getCandidatesLoop env now (List.range p.entries.length) p fresh
  if looped.2.2.isEmpty && !looped.1.entries.isEmpty then
    match looped.1.entries.get? 0 with
    | some e0 =>
      match e0.client with
      | none =>
        ({ looped.1 with
            entries := modifyAt looped.1.entries 0 (fun x => { x with client := some looped.2.1 }) },
         looped.2.1 + 1, [(looped.2.1, e0.base_url)])
      | some h => (looped.1, looped.2.1, [(h, e0.base_url)])
    | none => looped
  else looped

/-! ## Request executor (`QortalApiClient`) -/

/-- Outcome of one `client.get` call against a node. -/
inductive HttpOutcome
  | transportError
  | response (r : HttpResponse)

/-- `QortalApiClient._build_headers`: attach the privileged header only when
the call requests it, the target is trusted, and a non-empty key is
configured (Python truthiness). -/
def buildHeaders (use_api_key trusted : Bool) (api_key : Option String) :
    List (String × String) :=
  match api_key with
  | some k => if use_api_key && trusted && !(k = "") then [("X-API-KEY", k)] else []
  | none => []

/-- The `for client, entry in candidates` loop of `_request_with_pool`.
Returns the mutated pool, the trace of attempts (URL and headers actually
sent), and the final result; exhaustion raises `NodeUnreachableError`. -/
def requestLoop (env : String → HttpOutcome) (now : ℚ)
    (use_api_key expect_dict expect_json : Bool) (api_key : Option String) :
    NodePool → List (Nat × String) →
      NodePool × List (String × List (String × String)) × Except QortalApiError RespValue
  | p, [] => (p, [], .error ⟨.nodeUnreachable, "Node unreachable", none, none⟩)
  | p, (_h, u) :: rest =>
    let headers := buildHeaders use_api_key (p.is_trusted u) api_key
    match env u with
    | .transportError =>
      let tail := requestLoop env now use_api_key expect_dict expect_json api_key
        (p.report_failure u now) rest
      (tail.1, (u, headers) :: tail.2.1, tail.2.2)
    | .response r =>
      match processResponse r expect_dict expect_json with
      | .error e => (p.report_success u, [(u, headers)], .error e)
      | .ok v => (p.report_success u, [(u, headers)], .ok v)

/-- `QortalApiClient._request_with_pool`: get candidates, then run the loop. -/
def request_with_pool (p : NodePool) (probeEnv : String → ProbeOutcome)
    (env : String → HttpOutcome) (now : ℚ)
    (use_api_key expect_dict expect_json : Bool) (api_key : Option String) (fresh : Nat) :
    NodePool × List (String × List (String × String)) × Except QortalApiError RespValue :=
  let c := p.get_candidates probeEnv now fresh
  requestLoop env now use_api_key expect_dict expect_json api_key c.1 c.2.2

/-- `QortalApiClient._request_single`: one call to the configured node with
`trusted=True`; a transport failure raises `NodeUnreachableError` directly. -/
def request_single (outcome : HttpOutcome)
    (use_api_key expect_dict expect_json : Bool) (api_key : Option String) :
    List (String × String) × Except QortalApiError RespValue :=
  let headers := buildHeaders use_api_key true api_key
  match outcome with
  | .transportError => (headers, .error ⟨.nodeUnreachable, "Node unreachable", none, none⟩)
  | .response r => (headers, processResponse r expect_dict expect_json)

/-- The client state relevant to shutdown: the optional pool, the optional
own connection handle, and whether the client owns that handle. -/
structure QortalApiClientState where
  node_pool : Option NodePool
  client : Option Nat
  owns_client : Bool

/-- `QortalApiClient.aclose`: close the pool's handles, then the own handle
if owned; returns the handles closed by this call. -/
def QortalApiClientState.aclose (s : QortalApiClientState) : QortalApiClientState × List Nat :=
  let poolStep : Option NodePool × List Nat :=
    match s.node_pool with
    | some p => ((p.aclose).1, (p.aclose).2)
    | none => (none, [])
  let clientStep : Option Nat × List Nat :=
    match s.client, s.owns_client with
    | some h, true => (none, [h])
    | c, _ => (c, [])
  ({ node_pool := poolStep.1, client := clientStep.1, owns_client := s.owns_client },
   poolStep.2 ++ clientStep.2)

/-- The handles a client state currently holds open and would be responsible
for closing. -/
def openHandles (s : QortalApiClientState) : List Nat :=
  (match s.node_pool with
   | some p => p.entries.filterMap (fun e => e.client)
   | none => []) ++
  (match s.client, s.owns_client with
   | some h, true => [h]
   | _, _ => [])

/-- The fields of an entry that determine whether `get_candidates` selects
it: its URL and its failure state. -/
def entryKey (e : NodeEntry) : String × Option ℚ := (e.base_url, e.last_failure)

/-- Whether the probe environment admits the node. -/
def probeOk (env : String → ProbeOutcome) (u : String) : Bool :=
  match env u with
  | .response s => decide (s < 400)
  | .transportError => false

/-- Whether `get_candidates` selects an entry: not in cooldown, and—when it
carries a failure mark and a health-check path is configured—its probe
succeeds. -/
def eligibleEntry (cooldown_seconds : ℚ) (health_check_path : Option String)
    (env : String → ProbeOutcome) (now : ℚ) (e : NodeEntry) : Bool :=
  !cooldownCheck cooldown_seconds e now &&
    (if e.last_failure.isSome && health_check_path.isSome then probeOk env e.base_url else true)

/-! ## Token bucket lemmas -/

lemma consume_fields (b : TokenBucket) (t a : ℚ) :
    (b.consume t a).1.rate = b.rate ∧ (b.consume t a).1.capacity = b.capacity ∧
      (b.consume t a).1.timestamp = t := by
  unfold TokenBucket.consume
  dsimp only
  split <;> simp

lemma consume_inv (b : TokenBucket) (t a : ℚ)
    (hr : 0 ≤ b.rate) (hc : 0 ≤ b.capacity)
    (h0 : 0 ≤ b.tokens) (_h1 : b.tokens ≤ b.capacity)
    (ht : b.timestamp ≤ t) (ha : 0 ≤ a) :
    0 ≤ (b.consume t a).1.tokens ∧ (b.consume t a).1.tokens ≤ b.capacity := by
  unfold TokenBucket.consume
  dsimp only
  have helapsed : 0 ≤ (t - b.timestamp) * b.rate :=
    mul_nonneg (by linarith) hr
  have hminle : min b.capacity (b.tokens + (t - b.timestamp) * b.rate) ≤ b.capacity :=
    min_le_left _ _
  have hminge : 0 ≤ min b.capacity (b.tokens + (t - b.timestamp) * b.rate) :=
    le_min hc (by linarith)
  split
  next h => exact ⟨by dsimp only; linarith, by dsimp only; linarith⟩
  next h => exact ⟨by dsimp only; linarith, by dsimp only; linarith⟩

lemma consumeTrace_inv (tr : List (ℚ × ℚ)) :
    ∀ b : TokenBucket, 0 ≤ b.rate → 0 ≤ b.capacity →
      0 ≤ b.tokens → b.tokens ≤ b.capacity → admissible b.timestamp tr = true →
      0 ≤ (b.consumeTrace tr).1.tokens ∧ (b.consumeTrace tr).1.tokens ≤ b.capacity := by
  induction tr with
  | nil => intro b _ _ h0 h1 _; exact ⟨h0, h1⟩
  | cons p rest ih =>
    intro b hr hc h0 h1 hadm
    obtain ⟨t, a⟩ := p
    simp only [admissible, Bool.and_eq_true, decide_eq_true_eq] at hadm
    obtain ⟨⟨ht, ha⟩, hadm'⟩ := hadm
    have hfields := consume_fields b t a
    have hstep := consume_inv b t a hr hc h0 h1 ht ha
    have := ih (b.consume t a).1 (hfields.1 ▸ hr) (hfields.2.1 ▸ hc)
      hstep.1 (by rw [hfields.2.1]; exact hstep.2) (by rw [hfields.2.2]; exact hadm')
    simp only [TokenBucket.consumeTrace]
    exact ⟨this.1, by rw [← hfields.2.1]; exact this.2⟩

lemma consume_at_timestamp (b : TokenBucket) (a : ℚ) (h1 : b.tokens ≤ b.capacity) :
    b.consume b.timestamp a =
      if a ≤ b.tokens then ({ b with timestamp := b.timestamp, tokens := b.tokens - a }, true)
      else ({ b with timestamp := b.timestamp, tokens := b.tokens }, false) := by
  unfold TokenBucket.consume
  simp [min_eq_right h1]

lemma window_aux (n : ℕ) (t : ℚ) :
    ∀ b : TokenBucket, b.timestamp = t → 0 ≤ b.tokens → b.tokens ≤ b.capacity →
      ((b.consumeTrace (List.replicate n (t, 1))).2 : ℚ) ≤ b.tokens := by
  induction n with
  | zero => intro b _ h0 _; simp [TokenBucket.consumeTrace]; exact h0
  | succ m ih =>
    intro b ht h0 h1
    subst ht
    rw [List.replicate_succ]
    simp only [TokenBucket.consumeTrace]
    rw [consume_at_timestamp b 1 h1]
    by_cases hok : (1 : ℚ) ≤ b.tokens
    · rw [if_pos hok]
      have := ih { b with timestamp := b.timestamp, tokens := b.tokens - 1 }
        rfl (by dsimp only; linarith) (by dsimp only; linarith)
      dsimp only at this ⊢
      rw [if_pos rfl]
      push_cast
      linarith
    · rw [if_neg hok]
      have := ih { b with timestamp := b.timestamp, tokens := b.tokens }
        rfl (by dsimp only; linarith) (by dsimp only; linarith)
      dsimp only at this ⊢
      rw [if_neg Bool.false_ne_true]
      push_cast
      linarith

lemma consume_success_tokens (b : TokenBucket) (t a : ℚ) (h : (b.consume t a).2 = true) :
    (b.consume t a).1.tokens ≤ b.capacity - a := by
  unfold TokenBucket.consume at h ⊢
  dsimp only at h ⊢
  split at h
  next hle =>
    rw [if_pos hle]
    dsimp only
    have := min_le_left b.capacity (b.tokens + (t - b.timestamp) * b.rate)
    linarith
  next hle => simp at h

/-! ## Claim C6 -/

/-- C6 counterexample: the claim as stated quantifies over every rate, but a
bucket with rate `-1` and capacity `0` (which satisfies the claim's `b ≥ 0`)
driven by one admissible `consume` call ends with negative `tokens`,
violating the claimed invariant `0 ≤ tokens`. -/
theorem claim_C6_counterexample :
    admissible (0 : ℚ) [((1 : ℚ), (1 : ℚ))] = true ∧
      ¬ (0 ≤ ((TokenBucket.init (-1) 0 0).consumeTrace [(1, 1)]).1.tokens) := by
  constructor
  · norm_num [admissible]
  · norm_num [TokenBucket.init, TokenBucket.consumeTrace, TokenBucket.consume, min_def]

/-- C6 (amended with `0 ≤ r`): for every token bucket with rate `r ≥ 0` and
capacity `b ≥ 0` and every sequence of consume calls with non-negative
amounts and non-decreasing clock readings, `0 ≤ tokens ≤ b` holds after the
whole trace (and hence, the trace being arbitrary, after initialization and
after every consume call); and at most `b` consumptions of amount 1 succeed
within a window so short that every call sees the same clock reading. -/
theorem claim_C6_amended (r c t₀ : ℚ) (tr : List (ℚ × ℚ))
    (hr : 0 ≤ r) (hc : 0 ≤ c)
    (hadm : admissible t₀ tr = true) :
    (0 ≤ ((TokenBucket.init r c t₀).consumeTrace tr).1.tokens ∧
      ((TokenBucket.init r c t₀).consumeTrace tr).1.tokens ≤ c) ∧
    (∀ (t : ℚ) (n : ℕ), tr = List.replicate n (t, 1) →
      ((((TokenBucket.init r c t₀).consumeTrace tr).2 : ℚ) ≤ c)) := by
  constructor
  · exact consumeTrace_inv tr (TokenBucket.init r c t₀) hr hc hc le_rfl hadm
  · intro t n htr
    subst htr
    cases n with
    | zero => simpa [TokenBucket.consumeTrace] using hc
    | succ m =>
      rw [List.replicate_succ] at hadm ⊢
      simp only [admissible, Bool.and_eq_true, decide_eq_true_eq] at hadm
      obtain ⟨⟨ht, -⟩, -⟩ := hadm
      simp only [TokenBucket.consumeTrace]
      set b₀ := TokenBucket.init r c t₀ with hb₀
      have hfields := consume_fields b₀ t 1
      have hinv := consume_inv b₀ t 1 hr hc hc le_rfl ht (by norm_num)
      have hrest := window_aux m t (b₀.consume t 1).1 hfields.2.2 hinv.1
        (by rw [hfields.2.1]; exact hinv.2)
      cases hok : (b₀.consume t 1).2 with
      | true =>
        have hsub := consume_success_tokens b₀ t 1 hok
        rw [if_pos rfl]
        push_cast
        have : (b₀.consume t 1).1.tokens ≤ c - 1 := by
          have : b₀.capacity = c := rfl
          linarith [hsub, this]
        linarith
      | false =>
        rw [if_neg Bool.false_ne_true]
        push_cast
        have hcap : (b₀.consume t 1).1.tokens ≤ c := by
          have : b₀.capacity = c := rfl
          linarith [hinv.2]
        linarith

/-- Witness for C6: rate 1, capacity 1, two back-to-back unit consumptions at
time 0. -/
theorem claim_C6_amended_witness :
    ((0 ≤ ((TokenBucket.init 1 1 0).consumeTrace (List.replicate 2 ((0 : ℚ), (1 : ℚ)))).1.tokens ∧
        ((TokenBucket.init 1 1 0).consumeTrace (List.replicate 2 ((0 : ℚ), (1 : ℚ)))).1.tokens ≤ 1) ∧
      ((((TokenBucket.init 1 1 0).consumeTrace (List.replicate 2 ((0 : ℚ), (1 : ℚ)))).2 : ℚ) ≤ 1)) := by
  have h := claim_C6_amended 1 1 0 (List.replicate 2 ((0 : ℚ), (1 : ℚ)))
    (by norm_num) (by norm_num) (by norm_num [admissible, List.replicate])
  exact ⟨h.1, h.2 0 2 rfl⟩

/-! ## Claim C10 -/

/-- C10 counterexample: the claim says the first `allow` of an unseen key is
allowed "regardless of elapsed time or rate"; with a configured rate of `-1`
and burst `1`, a first call whose `consume` happens one time unit after the
bucket's creation is denied. -/
theorem claim_C10_counterexample :
    ((PerKeyRateLimiter.init (-1) (some 1)).allow "k" 0 1).2 = false := by
  norm_num [PerKeyRateLimiter.allow, PerKeyRateLimiter.init, RateLimiter.init,
    RateLimiter.allow, TokenBucket.init, TokenBucket.consume, setKey, min_def]

/-- C10 (amended with a non-negative configured rate): a token bucket is
created with `tokens` equal to its full capacity, so for every
previously-unseen key whose configured burst is at least 1 and whose
configured rate is non-negative, the very first `allow(key)` call returns
allowed regardless of the elapsed time between creation and consumption. -/
theorem claim_C10_amended (l : PerKeyRateLimiter) (key : String) (t0 t1 : ℚ)
    (hmiss : l.limiters.lookup key = none) (hburst : 1 ≤ l.burst)
    (hrate : 0 ≤ l.rate) (ht : t0 ≤ t1) :
    (∀ r c t : ℚ, (TokenBucket.init r c t).tokens = (TokenBucket.init r c t).capacity) ∧
      (l.allow key t0 t1).2 = true := by
  refine ⟨fun r c t => rfl, ?_⟩
  unfold PerKeyRateLimiter.allow
  rw [hmiss]
  dsimp only
  unfold RateLimiter.allow RateLimiter.init TokenBucket.init TokenBucket.consume
  dsimp only
  simp only [Option.getD_some]
  have hrefill : min l.burst (l.burst + (t1 - t0) * l.rate) = l.burst := by
    apply min_eq_left
    nlinarith
  rw [if_pos (by rw [hrefill]; linarith)]

/-- Witness for C10: default rate 5, unseen key, consume two time units after
creation. -/
theorem claim_C10_amended_witness :
    (∀ r c t : ℚ, (TokenBucket.init r c t).tokens = (TokenBucket.init r c t).capacity) ∧
      ((PerKeyRateLimiter.init 5 none).allow "get_balance" 0 2).2 = true :=
  claim_C10_amended (PerKeyRateLimiter.init 5 none) "get_balance" 0 2
    rfl (by norm_num [PerKeyRateLimiter.init]) (by norm_num [PerKeyRateLimiter.init]) (by norm_num)

/-! ## Claim C1 -/

/-- C1: the repository's own test
(`tests/test_rate_limiter.py::test_per_tool_override`) and its caller
(`qortal_mcp/server.py`) construct `PerKeyRateLimiter` with a `per_tool`
override table and expect the bucket of an overridden key to refill at the
override rate, but the class in `qortal_mcp/rate_limiter.py` accepts no such
table: the bucket created for `"slow_tool"` refills at the shared default
rate 10, whereas the spec-modelled limiter with override `{"slow_tool": 0.1}`
gives it rate 0.1. -/
theorem claim_C1_override_table_missing :
    bucketRate (((PerKeyRateLimiter.init 10 (some 5)).allow "slow_tool" 0 0).1.limiters)
        "slow_tool" = some 10 ∧
      bucketRate ((PerKeyRateLimiterSpec.allow ⟨10, 5, [("slow_tool", 1/10)], []⟩
          "slow_tool" 0 0).1.limiters) "slow_tool" = some (1/10) := by
  constructor
  · norm_num [bucketRate, PerKeyRateLimiter.allow, PerKeyRateLimiter.init, RateLimiter.init,
      RateLimiter.allow, TokenBucket.init, TokenBucket.consume, setKey, min_def]
  · norm_num [bucketRate, PerKeyRateLimiterSpec.allow, RateLimiter.init, RateLimiter.allow,
      TokenBucket.init, TokenBucket.consume, setKey, min_def, List.lookup]

/-! ## Claim C2 -/

/-- C2 counterexample: a 404 response whose `error` code is `INVALID_DATA`
matches none of the rules the claim lists (neither as the spec words them nor
as the code implements rules 1–7), yet the classifier does not return the
fixed message "Resource not found.": an invalid-data rule sits between rule 7
and the 404 fallback and yields the generic message instead. -/
theorem claim_C2_counterexample :
    specRules1to7Match (some (.str "INVALID_DATA")) none = false ∧
      matchesRules1to7 (some (.str "INVALID_DATA")) none = false ∧
      (map_error (some (.str "INVALID_DATA")) 404 none).message ≠ "Resource not found." :=
  ⟨by decide, by decide, by decide⟩

/-- C2 (amended): for every error response with HTTP status 404 whose error
code and message match none of the code's first seven rule guards and do not
match the invalid-data rule (code `INVALID_DATA` or message containing
"invalid data"), the classifier returns a `Generic` error with the fixed
message "Resource not found." — the rules being evaluated in order with first
match winning. -/
theorem claim_C2_amended (ec : Option PyScalar) (msg : Option String)
    (h1 : matchesRules1to7 ec msg = false)
    (h2 : ruleGuardInvalidData ec msg = false) :
    map_error ec 404 msg =
      ⟨.generic, "Resource not found.", diagnosticCode ec msg, some 404⟩ := by
  simp only [matchesRules1to7, Bool.or_eq_false_iff] at h1
  obtain ⟨⟨⟨⟨⟨⟨hg1, hg2⟩, hg3⟩, hg4⟩, hg5⟩, hg6⟩, hg7⟩ := h1
  unfold map_error
  simp [hg1, hg2, hg3, hg4, hg5, hg6, hg7, h2]

/-- Witness for C2: an unmapped code with a 404 status classifies as the
fixed resource-not-found error. -/
theorem claim_C2_amended_witness :
    map_error (some (.str "SOMETHING_ELSE")) 404 none =
      ⟨.generic, "Resource not found.",
        diagnosticCode (some (.str "SOMETHING_ELSE")) none, some 404⟩ :=
  claim_C2_amended (some (.str "SOMETHING_ELSE")) none (by decide) (by decide)

/-! ## Claim C8 -/

/-- C8: shutdown is idempotent: the first `aclose` closes exactly the handles
held open (the pool's created clients and, when owned, the client's own
handle), each listed once; a second `aclose` changes nothing and closes
nothing. -/
theorem claim_C8_aclose_idempotent (s : QortalApiClientState) :
    s.aclose.1.aclose = (s.aclose.1, []) ∧ s.aclose.2 = openHandles s := by
  obtain ⟨np, cl, ow⟩ := s
  cases np with
  | none =>
    cases cl with
    | none => cases ow <;> simp [QortalApiClientState.aclose, openHandles]
    | some h => cases ow <;> simp [QortalApiClientState.aclose, openHandles]
  | some p =>
    have hmap : (p.entries.map (fun e => { e with client := none })).map
        (fun e => { e with client := none }) =
        p.entries.map (fun e => { e with client := none }) := by
      rw [List.map_map]
      rfl
    have hfm : (p.entries.map (fun e => { e with client := none })).filterMap
        (fun e => e.client) = [] := by
      simp [List.filterMap_map, Function.comp]
    cases cl with
    | none =>
      cases ow <;>
        simp [QortalApiClientState.aclose, openHandles, NodePool.aclose, hmap, hfm]
    | some h =>
      cases ow <;>
        simp [QortalApiClientState.aclose, openHandles, NodePool.aclose, hmap, hfm]

/-! ## Claim C9 -/

lemma reportFailureList_no_match (u : String) (now : ℚ) :
    ∀ es : List NodeEntry, (∀ e ∈ es, e.base_url ≠ u) → reportFailureList u now es = es := by
  intro es
  induction es with
  | nil => intro _; rfl
  | cons x rest ih =>
    intro h
    simp only [reportFailureList]
    rw [if_neg (h x (List.mem_cons_self _ _)), ih (fun e he => h e (List.mem_cons_of_mem _ he))]

lemma reportSuccessList_no_match (u : String) :
    ∀ es : List NodeEntry, (∀ e ∈ es, e.base_url ≠ u) → reportSuccessList u es = es := by
  intro es
  induction es with
  | nil => intro _; rfl
  | cons x rest ih =>
    intro h
    simp only [reportSuccessList]
    rw [if_neg (h x (List.mem_cons_self _ _)), ih (fun e he => h e (List.mem_cons_of_mem _ he))]

lemma reportFailureList_first (u : String) (now : ℚ) :
    ∀ (es : List NodeEntry) (i : Nat) (e : NodeEntry), es.get? i = some e → e.base_url = u →
      (∀ j, j < i → ∀ e', es.get? j = some e' → e'.base_url ≠ u) →
      reportFailureList u now es = es.set i { e with last_failure := some now } := by
  intro es
  induction es with
  | nil => intro i e hget; simp at hget
  | cons x rest ih =>
    intro i e hget heq hfirst
    cases i with
    | zero =>
      simp only [List.get?_cons_zero, Option.some.injEq] at hget
      subst hget
      simp only [reportFailureList, List.set_cons_zero]
      rw [if_pos heq]
    | succ j =>
      have hx : x.base_url ≠ u := hfirst 0 (Nat.succ_pos j) x rfl
      simp only [List.get?_cons_succ] at hget
      simp only [reportFailureList, List.set_cons_succ]
      rw [if_neg hx, ih j e hget heq
        (fun k hk e' hget' => hfirst (k + 1) (Nat.succ_lt_succ hk) e' hget')]

lemma reportSuccessList_first (u : String) :
    ∀ (es : List NodeEntry) (i : Nat) (e : NodeEntry), es.get? i = some e → e.base_url = u →
      (∀ j, j < i → ∀ e', es.get? j = some e' → e'.base_url ≠ u) →
      reportSuccessList u es = es.set i { e with last_failure := none } := by
  intro es
  induction es with
  | nil => intro i e hget; simp at hget
  | cons x rest ih =>
    intro i e hget heq hfirst
    cases i with
    | zero =>
      simp only [List.get?_cons_zero, Option.some.injEq] at hget
      subst hget
      simp only [reportSuccessList, List.set_cons_zero]
      rw [if_pos heq]
    | succ j =>
      have hx : x.base_url ≠ u := hfirst 0 (Nat.succ_pos j) x rfl
      simp only [List.get?_cons_succ] at hget
      simp only [reportSuccessList, List.set_cons_succ]
      rw [if_neg hx, ih j e hget heq
        (fun k hk e' hget' => hfirst (k + 1) (Nat.succ_lt_succ hk) e' hget')]

/-- C9: `report_failure(u)`/`report_success(u)` are a silent no-op when no
entry's URL equals `u` exactly; otherwise they rewrite exactly the first
matching entry, changing only its `last_failure` field (to the current time,
respectively to `None`) and leaving its other fields and every other entry
unchanged. -/
theorem claim_C9_report_frame (p : NodePool) (u : String) (now : ℚ) :
    ((∀ e ∈ p.entries, e.base_url ≠ u) →
      p.report_failure u now = p ∧ p.report_success u = p) ∧
    (∀ i e, p.entries.get? i = some e → e.base_url = u →
      (∀ j, j < i → ∀ e', p.entries.get? j = some e' → e'.base_url ≠ u) →
      (p.report_failure u now).entries = p.entries.set i { e with last_failure := some now } ∧
      (p.report_success u).entries = p.entries.set i { e with last_failure := none }) := by
  constructor
  · intro h
    constructor
    · unfold NodePool.report_failure
      rw [reportFailureList_no_match u now p.entries h]
    · unfold NodePool.report_success
      rw [reportSuccessList_no_match u p.entries h]
  · intro i e hget heq hfirst
    exact ⟨reportFailureList_first u now p.entries i e hget heq hfirst,
      reportSuccessList_first u p.entries i e hget heq hfirst⟩

/-- Witness for C9: in a two-node pool, reporting a failure for the second
URL rewrites exactly that entry, and reporting for an unknown URL is a
no-op. -/
theorem claim_C9_report_frame_witness :
    (NodePool.report_failure
        ⟨[⟨"http://a", none, none, none⟩, ⟨"http://b", none, none, none⟩], 30, some "http://a",
          none⟩ "http://b" 5).entries =
      [⟨"http://a", none, none, none⟩, ⟨"http://b", none, some 5, none⟩] ∧
    NodePool.report_success
        ⟨[⟨"http://a", none, none, none⟩, ⟨"http://b", none, none, none⟩], 30, some "http://a",
          none⟩ "http://c" =
      ⟨[⟨"http://a", none, none, none⟩, ⟨"http://b", none, none, none⟩], 30, some "http://a",
        none⟩ := by
  constructor
  · have h := (claim_C9_report_frame
      ⟨[⟨"http://a", none, none, none⟩, ⟨"http://b", none, none, none⟩], 30, some "http://a",
        none⟩ "http://b" 5).2 1 ⟨"http://b", none, none, none⟩ rfl rfl
      (by
        intro j hj e' hget'
        have hj0 : j = 0 := Nat.lt_one_iff.mp hj
        subst hj0
        simp only [List.get?_cons_zero, Option.some.injEq] at hget'
        subst hget'
        decide)
    exact h.1
  · have h := (claim_C9_report_frame
      ⟨[⟨"http://a", none, none, none⟩, ⟨"http://b", none, none, none⟩], 30, some "http://a",
        none⟩ "http://c" 5).1
      (by
        intro e he
        rcases List.mem_cons.mp he with he | he
        · subst he; decide
        · rcases List.mem_cons.mp he with he | he
          · subst he; decide
          · simp at he)
    exact h.2

/-! ## Request executor lemmas -/

lemma map_error_kind (ec : Option PyScalar) (st : Nat) (msg : Option String) :
    (map_error ec st msg).kind ≠ ErrKind.nodeUnreachable := by
  unfold map_error
  repeat' split
  all_goals simp

lemma processResponse_error_kind (r : HttpResponse) (ed ej : Bool) (e : QortalApiError)
    (h : processResponse r ed ej = .error e) : e.kind ≠ ErrKind.nodeUnreachable := by
  unfold processResponse at h
  dsimp only at h
  repeat' split at h
  all_goals
    first
      | exact Except.noConfusion h
      | (injection h with h2; subst h2; exact map_error_kind _ _ _)
      | (injection h with h2; subst h2; simp)

lemma reportSuccessList_find (u : String) :
    ∀ es : List NodeEntry, ∀ ent,
      (reportSuccessList u es).find? (fun x => x.base_url == u) = some ent →
      ent.last_failure = none := by
  intro es
  induction es with
  | nil => intro ent h; simp [reportSuccessList] at h
  | cons x rest ih =>
    intro ent h
    by_cases hx : x.base_url = u
    · simp only [reportSuccessList, if_pos hx] at h
      rw [List.find?_cons_of_pos] at h
      · simp only [Option.some.injEq] at h
        rw [← h]
      · simp [hx]
    · simp only [reportSuccessList, if_neg hx] at h
      rw [List.find?_cons_of_neg] at h
      · exact ih ent h
      · simp [hx]

/-! ## Claim C3 -/

/-- C3: in pooled mode, when every candidate before some candidate `(hd, u)`
fails at the transport level and `u`'s response is turned into a domain error
`e` by the response processor, the loop behaves exactly as if the later
candidates were absent (no further candidate is attempted), raises `e` to the
caller, reports success for `u` (the first entry with that URL ends up with
its failure state cleared), and `e` is never of the `NodeUnreachable` kind. -/
theorem claim_C3_domain_error_stops_failover (env : String → HttpOutcome) (now : ℚ)
    (ua ed ej : Bool) (key : Option String)
    (pre post : List (Nat × String)) (hd : Nat) (u : String)
    (r : HttpResponse) (e : QortalApiError)
    (hpre : ∀ c ∈ pre, env c.2 = HttpOutcome.transportError)
    (hu : env u = HttpOutcome.response r)
    (hproc : processResponse r ed ej = .error e) :
    ∀ p : NodePool,
      requestLoop env now ua ed ej key p (pre ++ (hd, u) :: post) =
        requestLoop env now ua ed ej key p (pre ++ [(hd, u)]) ∧
      (requestLoop env now ua ed ej key p (pre ++ (hd, u) :: post)).2.2 = .error e ∧
      (∀ ent, ((requestLoop env now ua ed ej key p (pre ++ (hd, u) :: post)).1.entries.find?
          (fun x => x.base_url == u)) = some ent → ent.last_failure = none) ∧
      e.kind ≠ ErrKind.nodeUnreachable := by
  induction pre with
  | nil =>
    intro p
    simp only [List.nil_append]
    simp only [requestLoop, hu, hproc]
    refine ⟨trivial, trivial, ?_, processResponse_error_kind r ed ej e hproc⟩
    intro ent h
    exact reportSuccessList_find u p.entries ent h
  | cons c pre' ih =>
    intro p
    obtain ⟨ch, cu⟩ := c
    have hc : env cu = HttpOutcome.transportError := hpre (ch, cu) (List.mem_cons_self _ _)
    have ih' := ih (fun c hc' => hpre c (List.mem_cons_of_mem _ hc'))
      (p.report_failure cu now)
    simp only [List.cons_append, requestLoop, hc, List.append_eq]
    refine ⟨?_, ih'.2.1, ih'.2.2.1, ih'.2.2.2⟩
    rw [ih'.1]

/-- Witness for C3: primary transport-fails, the fallback answers 400 with an
unmapped code; the loop stops at the fallback with the generic error and a
third candidate is never consulted. -/
theorem claim_C3_witness :
    requestLoop
        (fun v => if v = "http://b" then HttpOutcome.response ⟨400, none, ""⟩
          else HttpOutcome.transportError)
        0 false true true none ⟨[⟨"http://b", none, none, none⟩], 30, some "http://b", none⟩
        ([(0, "http://a")] ++ (1, "http://b") :: [(2, "http://c")]) =
      requestLoop
        (fun v => if v = "http://b" then HttpOutcome.response ⟨400, none, ""⟩
          else HttpOutcome.transportError)
        0 false true true none ⟨[⟨"http://b", none, none, none⟩], 30, some "http://b", none⟩
        ([(0, "http://a")] ++ [(1, "http://b")]) ∧
    (requestLoop
        (fun v => if v = "http://b" then HttpOutcome.response ⟨400, none, ""⟩
          else HttpOutcome.transportError)
        0 false true true none ⟨[⟨"http://b", none, none, none⟩], 30, some "http://b", none⟩
        ([(0, "http://a")] ++ (1, "http://b") :: [(2, "http://c")])).2.2 =
      .error (map_error none 400 none) ∧
    (∀ ent, ((requestLoop
        (fun v => if v = "http://b" then HttpOutcome.response ⟨400, none, ""⟩
          else HttpOutcome.transportError)
        0 false true true none ⟨[⟨"http://b", none, none, none⟩], 30, some "http://b", none⟩
        ([(0, "http://a")] ++ (1, "http://b") :: [(2, "http://c")])).1.entries.find?
          (fun x => x.base_url == "http://b")) = some ent → ent.last_failure = none) ∧
    (map_error none 400 none).kind ≠ ErrKind.nodeUnreachable :=
  claim_C3_domain_error_stops_failover _ 0 false true true none
    [(0, "http://a")] [(2, "http://c")] 1 "http://b" ⟨400, none, ""⟩
    (map_error none 400 none)
    (by
      intro c hc
      simp only [List.mem_singleton] at hc
      subst hc
      rfl)
    rfl rfl ⟨[⟨"http://b", none, none, none⟩], 30, some "http://b", none⟩

/-! ## Claim C4 -/

/-- C4: in pooled mode the loop raises `NodeUnreachable` exactly when every
candidate in the list fails at the transport level; under all-transport
failure the final pool state records a failure against each candidate in
order; and in single-node mode a transport failure raises `NodeUnreachable`
directly. -/
theorem claim_C4_transport_failover (env : String → HttpOutcome) (now : ℚ)
    (ua ed ej : Bool) (key : Option String) :
    ∀ (cands : List (Nat × String)) (p : NodePool),
      ((requestLoop env now ua ed ej key p cands).2.2 =
          .error ⟨.nodeUnreachable, "Node unreachable", none, none⟩ ↔
        ∀ c ∈ cands, env c.2 = HttpOutcome.transportError) ∧
      ((∀ c ∈ cands, env c.2 = HttpOutcome.transportError) →
        (requestLoop env now ua ed ej key p cands).1 =
          cands.foldl (fun q c => q.report_failure c.2 now) p) ∧
      (request_single HttpOutcome.transportError ua ed ej key).2 =
        .error ⟨.nodeUnreachable, "Node unreachable", none, none⟩ := by
  intro cands
  induction cands with
  | nil =>
    intro p
    refine ⟨by simp [requestLoop], fun _ => rfl, rfl⟩
  | cons c rest ih =>
    intro p
    obtain ⟨ch, cu⟩ := c
    refine ⟨?_, ?_, rfl⟩
    · cases henv : env cu with
      | transportError =>
        simp only [requestLoop, henv]
        rw [(ih (p.report_failure cu now)).1]
        constructor
        · intro hall
          intro c hc
          rcases List.mem_cons.mp hc with hc | hc
          · rw [hc]; exact henv
          · exact hall c hc
        · intro hall c hc
          exact hall c (List.mem_cons_of_mem _ hc)
      | response r =>
        simp only [requestLoop, henv]
        cases hproc : processResponse r ed ej with
        | error e =>
          simp only [hproc]
          constructor
          · intro hcontr
            exfalso
            have hkind := processResponse_error_kind r ed ej e hproc
            simp only [Except.error.injEq] at hcontr
            rw [hcontr] at hkind
            exact hkind rfl
          · intro hall
            exfalso
            have := hall (ch, cu) (List.mem_cons_self _ _)
            rw [henv] at this
            exact HttpOutcome.noConfusion this
        | ok v =>
          simp only [hproc]
          constructor
          · intro hcontr
            exact Except.noConfusion hcontr
          · intro hall
            exfalso
            have := hall (ch, cu) (List.mem_cons_self _ _)
            rw [henv] at this
            exact HttpOutcome.noConfusion this
    · intro hall
      have hc : env cu = HttpOutcome.transportError := hall (ch, cu) (List.mem_cons_self _ _)
      simp only [requestLoop, hc, List.foldl_cons]
      exact (ih (p.report_failure cu now)).2.1 (fun c hcm => hall c (List.mem_cons_of_mem _ hcm))

/-- Witness for C4: with both candidates transport-failing the loop raises
`NodeUnreachable` and records a failure against both nodes. -/
theorem claim_C4_transport_failover_witness :
    (requestLoop (fun _ => HttpOutcome.transportError) 7 false true true none
        ⟨[], 30, some "http://a", none⟩ [(0, "http://a"), (1, "http://b")]).2.2 =
      .error ⟨.nodeUnreachable, "Node unreachable", none, none⟩ ∧
    (requestLoop (fun _ => HttpOutcome.transportError) 7 false true true none
        ⟨[], 30, some "http://a", none⟩ [(0, "http://a"), (1, "http://b")]).1 =
      (NodePool.report_failure (NodePool.report_failure ⟨[], 30, some "http://a", none⟩
        "http://a" 7) "http://b" 7) := by
  have h := claim_C4_transport_failover (fun _ => HttpOutcome.transportError) 7
    false true true none [(0, "http://a"), (1, "http://b")] ⟨[], 30, some "http://a", none⟩
  exact ⟨h.1.mpr (fun c _ => rfl), h.2.1 (fun c _ => rfl)⟩

/-! ## Claim C7 -/

lemma buildHeaders_key (ua tr : Bool) (key : Option String) :
    ((buildHeaders ua tr key).lookup "X-API-KEY").isSome = true ↔
      (ua = true ∧ tr = true ∧ ∃ k, key = some k ∧ k ≠ "") := by
  cases key with
  | none => simp [buildHeaders]
  | some k =>
    by_cases hk : k = ""
    · subst hk
      cases ua <;> cases tr <;> simp [buildHeaders, List.lookup]
    · cases ua <;> cases tr <;> simp [buildHeaders, List.lookup, hk]

lemma requestLoop_trace (env : String → HttpOutcome) (now : ℚ)
    (ua ed ej : Bool) (key : Option String) :
    ∀ (cands : List (Nat × String)) (p : NodePool),
      ∀ a ∈ (requestLoop env now ua ed ej key p cands).2.1,
        a.2 = buildHeaders ua (p.is_trusted a.1) key := by
  intro cands
  induction cands with
  | nil => intro p a ha; simp [requestLoop] at ha
  | cons c rest ih =>
    intro p a ha
    obtain ⟨ch, cu⟩ := c
    cases henv : env cu with
    | transportError =>
      simp only [requestLoop, henv] at ha
      rcases List.mem_cons.mp ha with ha | ha
      · rw [ha]
      · exact ih (p.report_failure cu now) a ha
    | response r =>
      simp only [requestLoop, henv] at ha
      cases hproc : processResponse r ed ej with
      | error e =>
        simp only [hproc] at ha
        rcases List.mem_cons.mp ha with ha | ha
        · rw [ha]
        · simp at ha
      | ok v =>
        simp only [hproc] at ha
        rcases List.mem_cons.mp ha with ha | ha
        · rw [ha]
        · simp at ha

/-- C7: `is_trusted(url)` holds exactly for the primary node's URL, and every
attempt the pooled request loop makes sends exactly the headers built for
that candidate's trust status: the privileged `X-API-KEY` header is present
if and only if the candidate is the primary and the call requests the key and
a non-empty key is configured.  In particular no fallback node is ever sent
the credential. -/
theorem claim_C7_credential_only_primary (env : String → HttpOutcome) (now : ℚ)
    (ua ed ej : Bool) (key : Option String) (p : NodePool) (cands : List (Nat × String)) :
    (∀ u, p.is_trusted u = true ↔ p.primary_url = some u) ∧
    (∀ a ∈ (requestLoop env now ua ed ej key p cands).2.1,
      a.2 = buildHeaders ua (p.is_trusted a.1) key ∧
      (((a.2.lookup "X-API-KEY").isSome = true) ↔
        (p.is_trusted a.1 = true ∧ ua = true ∧ ∃ k, key = some k ∧ k ≠ ""))) := by
  constructor
  · intro u
    cases hp : p.primary_url with
    | none => simp [NodePool.is_trusted, hp]
    | some pr => simp [NodePool.is_trusted, hp, eq_comm]
  · intro a ha
    have htr := requestLoop_trace env now ua ed ej key cands p a ha
    refine ⟨htr, ?_⟩
    rw [htr]
    rw [buildHeaders_key ua (p.is_trusted a.1) key]
    constructor
    · rintro ⟨h1, h2, h3⟩
      exact ⟨h2, h1, h3⟩
    · rintro ⟨h1, h2, h3⟩
      exact ⟨h2, h1, h3⟩

/-- Witness for C7: the attempt to the primary URL carries exactly the
privileged header built for a trusted target. -/
theorem claim_C7_credential_only_primary_witness :
    ("http://a", [("X-API-KEY", "secret")]).2 =
      buildHeaders true
        (NodePool.is_trusted ⟨[], 30, some "http://a", none⟩
          ("http://a", [("X-API-KEY", "secret")]).1) (some "secret") ∧
    ((((("http://a", [("X-API-KEY", "secret")]).2.lookup "X-API-KEY").isSome = true)) ↔
      (NodePool.is_trusted ⟨[], 30, some "http://a", none⟩
          ("http://a", [("X-API-KEY", "secret")]).1 = true ∧ true = true ∧
        ∃ k, (some "secret" : Option String) = some k ∧ k ≠ "")) :=
  (claim_C7_credential_only_primary (fun _ => HttpOutcome.transportError) 0 true true true
    (some "secret") ⟨[], 30, some "http://a", none⟩ [(0, "http://a"), (1, "http://b")]).2
    ("http://a", [("X-API-KEY", "secret")]) (by decide)


/-! ## Claim C5 -/

lemma modifyAt_get?_ne {α : Type} :
    ∀ (es : List α) (i j : Nat) (f : α → α), j ≠ i →
      (modifyAt es i f).get? j = es.get? j := by
  intro es
  induction es with
  | nil => intro i j f _; simp [modifyAt]
  | cons x rest ih =>
    intro i j f hne
    cases i with
    | zero =>
      cases j with
      | zero => exact absurd rfl hne
      | succ j' => simp [modifyAt]
    | succ i' =>
      cases j with
      | zero => simp [modifyAt]
      | succ j' =>
        simp only [modifyAt, List.get?_cons_succ]
        exact ih i' j' f (fun h => hne (by rw [h]))

lemma modifyAt_get?_self {α : Type} :
    ∀ (es : List α) (i : Nat) (f : α → α),
      (modifyAt es i f).get? i = (es.get? i).map f := by
  intro es
  induction es with
  | nil => intro i f; simp [modifyAt]
  | cons x rest ih =>
    intro i f
    cases i with
    | zero => simp [modifyAt]
    | succ i' =>
      simp only [modifyAt, List.get?_cons_succ]
      exact ih i' f

lemma modifyAt_map {α β : Type} (g : α → β) :
    ∀ (es : List α) (i : Nat) (f : α → α), (∀ x, g (f x) = g x) →
      (modifyAt es i f).map g = es.map g := by
  intro es
  induction es with
  | nil => intro i f _; rfl
  | cons x rest ih =>
    intro i f hgf
    cases i with
    | zero => simp [modifyAt, hgf]
    | succ i' => simp [modifyAt, ih i' f hgf]

lemma get?_set_ne' {α : Type} (l : List α) (i j : Nat) (a : α) (h : j ≠ i) :
    (l.set i a).get? j = l.get? j := by
  rw [List.get?_set, if_neg (fun hij => h hij.symm)]

lemma entryKey_eq_iff (e e' : NodeEntry) :
    entryKey e = entryKey e' ↔ e.base_url = e'.base_url ∧ e.last_failure = e'.last_failure := by
  unfold entryKey
  constructor
  · intro h
    exact ⟨congrArg Prod.fst h, congrArg Prod.snd h⟩
  · rintro ⟨h1, h2⟩
    rw [h1, h2]

lemma first_match_from_nodup (es : List NodeEntry)
    (hnodup : (es.map NodeEntry.base_url).Nodup) (i : Nat) (e : NodeEntry)
    (hi : es.get? i = some e) :
    ∀ j, j < i → ∀ e', es.get? j = some e' → e'.base_url ≠ e.base_url := by
  intro j hj e' hj' hurl
  have hmi : (es.map NodeEntry.base_url).get? i = some e.base_url := by
    rw [List.get?_map, hi]; rfl
  have hmj : (es.map NodeEntry.base_url).get? j = some e'.base_url := by
    rw [List.get?_map, hj']; rfl
  obtain ⟨hjlen, -⟩ := List.get?_eq_some.mp hj'
  have hlen : j < (es.map NodeEntry.base_url).length := by
    rw [List.length_map]; exact hjlen
  have : j = i := List.get?_inj hlen hnodup (by rw [hmi, hmj, hurl])
  omega

lemma reportFailureList_map_url (u : String) (now : ℚ) :
    ∀ es : List NodeEntry,
      (reportFailureList u now es).map NodeEntry.base_url = es.map NodeEntry.base_url := by
  intro es
  induction es with
  | nil => rfl
  | cons x rest ih =>
    simp only [reportFailureList]
    split
    · simp
    · simp [ih]

lemma reportSuccessList_map_url (u : String) :
    ∀ es : List NodeEntry,
      (reportSuccessList u es).map NodeEntry.base_url = es.map NodeEntry.base_url := by
  intro es
  induction es with
  | nil => rfl
  | cons x rest ih =>
    simp only [reportSuccessList]
    split
    · simp
    · simp [ih]

lemma reportFailureList_nodup_set (now : ℚ) (es : List NodeEntry)
    (hnodup : (es.map NodeEntry.base_url).Nodup) (i : Nat) (e : NodeEntry)
    (hi : es.get? i = some e) :
    reportFailureList e.base_url now es = es.set i { e with last_failure := some now } :=
  reportFailureList_first e.base_url now es i e hi rfl
    (fun j hj e' hj' => first_match_from_nodup es hnodup i e hi j hj e' hj')

lemma reportSuccessList_nodup_set (es : List NodeEntry)
    (hnodup : (es.map NodeEntry.base_url).Nodup) (i : Nat) (e : NodeEntry)
    (hi : es.get? i = some e) :
    reportSuccessList e.base_url es = es.set i { e with last_failure := none } :=
  reportSuccessList_first e.base_url es i e hi rfl
    (fun j hj e' hj' => first_match_from_nodup es hnodup i e hi j hj e' hj')

lemma cooldownCheck_congr (cd : ℚ) (now : ℚ) (e e' : NodeEntry)
    (h : e.last_failure = e'.last_failure) :
    cooldownCheck cd e now = cooldownCheck cd e' now := by
  unfold cooldownCheck
  rw [h]

lemma probe_char (env : String → ProbeOutcome) (now : ℚ) (i fresh : Nat)
    (p : NodePool) (e : NodeEntry)
    (hpath : p.health_check_path.isSome = true)
    (hi : p.entries.get? i = some e)
    (hcl : e.client.isSome = true)
    (hnodup : (p.entries.map NodeEntry.base_url).Nodup) :
    ((p.probe env now i fresh).2.2 = probeOk env e.base_url) ∧
    ((p.probe env now i fresh).2.1 = fresh) ∧
    ((p.probe env now i fresh).1.cooldown_seconds = p.cooldown_seconds) ∧
    ((p.probe env now i fresh).1.health_check_path = p.health_check_path) ∧
    ((p.probe env now i fresh).1.entries.map NodeEntry.base_url =
      p.entries.map NodeEntry.base_url) ∧
    (∀ j, j ≠ i → ((p.probe env now i fresh).1.entries.get? j).map entryKey =
      (p.entries.get? j).map entryKey) := by
  obtain ⟨path, hp⟩ := Option.isSome_iff_exists.mp hpath
  obtain ⟨cl, hc⟩ := Option.isSome_iff_exists.mp hcl
  have hcne : ¬ e.client = none := by rw [hc]; simp
  unfold NodePool.probe
  rw [hp]
  simp only [hi, if_neg hcne]
  cases henv : env e.base_url with
  | transportError =>
    dsimp only
    refine ⟨by simp [probeOk, henv], rfl, rfl, hp, ?_, ?_⟩
    · exact reportFailureList_map_url e.base_url now p.entries
    · intro j hj
      show ((reportFailureList e.base_url now p.entries).get? j).map entryKey = _
      rw [reportFailureList_nodup_set now p.entries hnodup i e hi, get?_set_ne' _ i j _ hj]
  | response s =>
    have hmod_urls : (modifyAt p.entries i
        (fun x => { x with last_health_check := some now })).map NodeEntry.base_url =
        p.entries.map NodeEntry.base_url :=
      modifyAt_map NodeEntry.base_url p.entries i _ (fun x => rfl)
    have hmod_get : (modifyAt p.entries i
        (fun x => { x with last_health_check := some now })).get? i =
        some { e with last_health_check := some now } := by
      rw [modifyAt_get?_self, hi]; rfl
    have hmod_ne : ∀ j, j ≠ i → (modifyAt p.entries i
        (fun x => { x with last_health_check := some now })).get? j = p.entries.get? j :=
      fun j hj => modifyAt_get?_ne p.entries i j _ hj
    have hmod_nodup : ((modifyAt p.entries i
        (fun x => { x with last_health_check := some now })).map NodeEntry.base_url).Nodup := by
      rw [hmod_urls]; exact hnodup
    by_cases hs : s < 400
    · dsimp only
      rw [if_pos hs]
      refine ⟨by simp [probeOk, henv, hs], rfl, rfl, hp, ?_, ?_⟩
      · show (reportSuccessList e.base_url _).map NodeEntry.base_url = _
        rw [reportSuccessList_map_url, hmod_urls]
      · intro j hj
        show ((reportSuccessList e.base_url _).get? j).map entryKey = _
        rw [reportSuccessList_nodup_set _ hmod_nodup i _ hmod_get,
          get?_set_ne' _ i j _ hj, hmod_ne j hj]
    · dsimp only
      rw [if_neg hs]
      refine ⟨by simp [probeOk, henv, hs], rfl, rfl, hp, ?_, ?_⟩
      · show (reportFailureList e.base_url now _).map NodeEntry.base_url = _
        rw [reportFailureList_map_url, hmod_urls]
      · intro j hj
        show ((reportFailureList e.base_url now _).get? j).map entryKey = _
        rw [reportFailureList_nodup_set now _ hmod_nodup i _ hmod_get,
          get?_set_ne' _ i j _ hj, hmod_ne j hj]



lemma step_created_aux (env : String → ProbeOutcome) (now : ℚ) (p₀ : NodePool)
    (hnodup : (p₀.entries.map NodeEntry.base_url).Nodup)
    (p1 : NodePool) (i fresh1 hd : Nat) (e e₀ e' : NodeEntry)
    (hurl_e : e.base_url = e₀.base_url)
    (hlf_e : e.last_failure = e₀.last_failure)
    (hcoolb : cooldownCheck p₀.cooldown_seconds e₀ now = false)
    (hp1cd : p1.cooldown_seconds = p₀.cooldown_seconds)
    (hp1hcp : p1.health_check_path = p₀.health_check_path)
    (hp1urls : p1.entries.map NodeEntry.base_url = p₀.entries.map NodeEntry.base_url)
    (hp1get : p1.entries.get? i = some e')
    (hp1cl : e'.client.isSome = true)
    (hkey' : entryKey e' = entryKey e) :
    ((if (e.last_failure.isSome && p1.health_check_path.isSome) = true then
        if (p1.probe env now i fresh1).2.2 = true then
          ((p1.probe env now i fresh1).1, (p1.probe env now i fresh1).2.1,
            some (hd, e.base_url))
        else ((p1.probe env now i fresh1).1, (p1.probe env now i fresh1).2.1, none)
      else (p1, fresh1, some (hd, e.base_url))).1.cooldown_seconds = p₀.cooldown_seconds) ∧
    ((if (e.last_failure.isSome && p1.health_check_path.isSome) = true then
        if (p1.probe env now i fresh1).2.2 = true then
          ((p1.probe env now i fresh1).1, (p1.probe env now i fresh1).2.1,
            some (hd, e.base_url))
        else ((p1.probe env now i fresh1).1, (p1.probe env now i fresh1).2.1, none)
      else (p1, fresh1, some (hd, e.base_url))).1.health_check_path = p₀.health_check_path) ∧
    ((if (e.last_failure.isSome && p1.health_check_path.isSome) = true then
        if (p1.probe env now i fresh1).2.2 = true then
          ((p1.probe env now i fresh1).1, (p1.probe env now i fresh1).2.1,
            some (hd, e.base_url))
        else ((p1.probe env now i fresh1).1, (p1.probe env now i fresh1).2.1, none)
      else (p1, fresh1, some (hd, e.base_url))).1.entries.map NodeEntry.base_url =
        p₀.entries.map NodeEntry.base_url) ∧
    (∀ j, j ≠ i →
      (((if (e.last_failure.isSome && p1.health_check_path.isSome) = true then
          if (p1.probe env now i fresh1).2.2 = true then
            ((p1.probe env now i fresh1).1, (p1.probe env now i fresh1).2.1,
              some (hd, e.base_url))
          else ((p1.probe env now i fresh1).1, (p1.probe env now i fresh1).2.1, none)
        else (p1, fresh1, some (hd, e.base_url))).1.entries.get? j).map entryKey =
        (p1.entries.get? j).map entryKey)) ∧
    ((if (e.last_failure.isSome && p1.health_check_path.isSome) = true then
        if (p1.probe env now i fresh1).2.2 = true then
          ((p1.probe env now i fresh1).1, (p1.probe env now i fresh1).2.1,
            some (hd, e.base_url))
        else ((p1.probe env now i fresh1).1, (p1.probe env now i fresh1).2.1, none)
      else (p1, fresh1, some (hd, e.base_url))).2.2.map Prod.snd =
      if eligibleEntry p₀.cooldown_seconds p₀.health_check_path env now e₀
      then some e₀.base_url else none) := by
  have hurlq : e'.base_url = e₀.base_url := (congrArg Prod.fst hkey').trans hurl_e
  have hguard_eq : (e.last_failure.isSome && p1.health_check_path.isSome) =
      (e₀.last_failure.isSome && p₀.health_check_path.isSome) := by
    rw [hlf_e, hp1hcp]
  by_cases hguard : (e₀.last_failure.isSome && p₀.health_check_path.isSome) = true
  · have hp1nodup : (p1.entries.map NodeEntry.base_url).Nodup := by
      rw [hp1urls]; exact hnodup
    have hhcpsome : p1.health_check_path.isSome = true := by
      rw [hp1hcp]
      have := hguard
      rw [Bool.and_eq_true] at this
      exact this.2
    have hpc := probe_char env now i fresh1 p1 e' hhcpsome hp1get hp1cl hp1nodup
    have helig : eligibleEntry p₀.cooldown_seconds p₀.health_check_path env now e₀ =
        probeOk env e₀.base_url := by
      unfold eligibleEntry
      rw [hcoolb, hguard]
      rfl
    rw [hguard_eq.trans hguard]
    simp only [if_pos rfl]
    rw [hpc.1, hurlq]
    by_cases hok : probeOk env e₀.base_url = true
    · rw [hok]
      simp only [if_pos rfl]
      exact ⟨hpc.2.2.1.trans hp1cd, hpc.2.2.2.1.trans hp1hcp,
        hpc.2.2.2.2.1.trans hp1urls, hpc.2.2.2.2.2,
        by rw [helig, hok]; simp [hurl_e]⟩
    · have hokf : probeOk env e₀.base_url = false := Bool.eq_false_iff.mpr hok
      rw [hokf]
      simp only [if_neg Bool.false_ne_true]
      exact ⟨hpc.2.2.1.trans hp1cd, hpc.2.2.2.1.trans hp1hcp,
        hpc.2.2.2.2.1.trans hp1urls, hpc.2.2.2.2.2,
        by rw [helig, hokf]; simp⟩
  · have hguardf : (e₀.last_failure.isSome && p₀.health_check_path.isSome) = false :=
      Bool.eq_false_iff.mpr hguard
    have helig : eligibleEntry p₀.cooldown_seconds p₀.health_check_path env now e₀ = true := by
      unfold eligibleEntry
      rw [hcoolb, hguardf]
      rfl
    rw [hguard_eq.trans hguardf]
    simp only [if_neg Bool.false_ne_true]
    exact ⟨hp1cd, hp1hcp, hp1urls, fun j _ => trivial,
      by rw [helig]; simp [hurl_e]⟩



lemma candidateStep_char (env : String → ProbeOutcome) (now : ℚ) (p₀ : NodePool)
    (hnodup : (p₀.entries.map NodeEntry.base_url).Nodup)
    (p : NodePool) (i fresh : Nat)
    (hcd : p.cooldown_seconds = p₀.cooldown_seconds)
    (hhcp : p.health_check_path = p₀.health_check_path)
    (hurls : p.entries.map NodeEntry.base_url = p₀.entries.map NodeEntry.base_url)
    (hkey_i : (p.entries.get? i).map entryKey = (p₀.entries.get? i).map entryKey) :
    ((candidateStep env now p i fresh).1.cooldown_seconds = p₀.cooldown_seconds) ∧
    ((candidateStep env now p i fresh).1.health_check_path = p₀.health_check_path) ∧
    ((candidateStep env now p i fresh).1.entries.map NodeEntry.base_url =
      p₀.entries.map NodeEntry.base_url) ∧
    (∀ j, j ≠ i → ((candidateStep env now p i fresh).1.entries.get? j).map entryKey =
      (p.entries.get? j).map entryKey) ∧
    ((candidateStep env now p i fresh).2.2.map Prod.snd =
      (p₀.entries.get? i).bind (fun x =>
        if eligibleEntry p₀.cooldown_seconds p₀.health_check_path env now x
        then some x.base_url else none)) := by
  cases hgi : p.entries.get? i with
  | none =>
    have hg0 : p₀.entries.get? i = none := by
      rw [hgi] at hkey_i
      cases hg0 : p₀.entries.get? i with
      | none => rfl
      | some e₀ => rw [hg0] at hkey_i; simp at hkey_i
    simp only [candidateStep, hgi, hg0, Option.none_bind]
    exact ⟨hcd, hhcp, hurls, fun j _ => by trivial, by trivial⟩
  | some e =>
    obtain ⟨e₀, hg0, hke⟩ : ∃ e₀, p₀.entries.get? i = some e₀ ∧ entryKey e = entryKey e₀ := by
      rw [hgi] at hkey_i
      cases hg0 : p₀.entries.get? i with
      | none => rw [hg0] at hkey_i; simp at hkey_i
      | some e₀ =>
        rw [hg0] at hkey_i
        simp only [Option.map_some'] at hkey_i
        exact ⟨e₀, rfl, by injection hkey_i⟩
    have hurl_e : e.base_url = e₀.base_url := ((entryKey_eq_iff e e₀).mp hke).1
    have hlf_e : e.last_failure = e₀.last_failure := ((entryKey_eq_iff e e₀).mp hke).2
    have hcool_eq : p.in_cooldown e now = cooldownCheck p₀.cooldown_seconds e₀ now := by
      unfold NodePool.in_cooldown
      rw [hcd]
      exact cooldownCheck_congr _ now e e₀ hlf_e
    simp only [candidateStep, hgi, hg0, Option.some_bind]
    by_cases hcool : cooldownCheck p₀.cooldown_seconds e₀ now = true
    · rw [if_pos (hcool_eq.trans hcool)]
      have helig : eligibleEntry p₀.cooldown_seconds p₀.health_check_path env now e₀ = false := by
        unfold eligibleEntry
        rw [hcool]
        rfl
      rw [helig]
      simp only [if_neg Bool.false_ne_true]
      exact ⟨hcd, hhcp, hurls, fun j _ => by trivial, by trivial⟩
    · rw [if_neg (by rw [hcool_eq]; exact hcool)]
      have hcoolb : cooldownCheck p₀.cooldown_seconds e₀ now = false :=
        Bool.eq_false_iff.mpr hcool
      cases hcl : e.client with
      | none =>
        dsimp only
        have h := step_created_aux env now p₀ hnodup
          ({ p with entries := modifyAt p.entries i (fun x => { x with client := some fresh }) })
          i (fresh + 1) fresh e e₀ ({ e with client := some fresh })
          hurl_e hlf_e hcoolb hcd hhcp
          ((modifyAt_map NodeEntry.base_url p.entries i
            (fun x => { x with client := some fresh }) (fun x => rfl)).trans hurls)
          (by rw [modifyAt_get?_self, hgi]; rfl)
          rfl rfl
        refine ⟨h.1, h.2.1, h.2.2.1, ?_, h.2.2.2.2⟩
        intro j hj
        rw [h.2.2.2.1 j hj]
        show ((modifyAt p.entries i _).get? j).map entryKey = _
        rw [modifyAt_get?_ne p.entries i j _ hj]
      | some hdl =>
        dsimp only
        have h := step_created_aux env now p₀ hnodup p i fresh hdl e e₀ e
          hurl_e hlf_e hcoolb hcd hhcp hurls hgi (by rw [hcl]; rfl) rfl
        exact ⟨h.1, h.2.1, h.2.2.1, h.2.2.2.1, h.2.2.2.2⟩



lemma getCandidatesLoop_char (env : String → ProbeOutcome) (now : ℚ) (p₀ : NodePool)
    (hnodup : (p₀.entries.map NodeEntry.base_url).Nodup) :
    ∀ is : List Nat, is.Nodup →
    ∀ (p : NodePool) (fresh : Nat),
      p.cooldown_seconds = p₀.cooldown_seconds →
      p.health_check_path = p₀.health_check_path →
      p.entries.map NodeEntry.base_url = p₀.entries.map NodeEntry.base_url →
      (∀ j ∈ is, (p.entries.get? j).map entryKey = (p₀.entries.get? j).map entryKey) →
      ((getCandidatesLoop env now is p fresh).1.entries.map NodeEntry.base_url =
        p₀.entries.map NodeEntry.base_url) ∧
      ((getCandidatesLoop env now is p fresh).2.2.map Prod.snd =
        is.filterMap (fun j => (p₀.entries.get? j).bind (fun x =>
          if eligibleEntry p₀.cooldown_seconds p₀.health_check_path env now x
          then some x.base_url else none))) := by
  intro is
  induction is with
  | nil =>
    intro _ p fresh _ _ hurls _
    exact ⟨hurls, by simp [getCandidatesLoop]⟩
  | cons i rest ih =>
    intro hisnd p fresh hcd hhcp hurls hkeys
    have hinotin : i ∉ rest := (List.nodup_cons.mp hisnd).1
    have hrestnd : rest.Nodup := (List.nodup_cons.mp hisnd).2
    have hstep := candidateStep_char env now p₀ hnodup p i fresh hcd hhcp hurls
      (hkeys i (List.mem_cons_self _ _))
    have htail := ih hrestnd (candidateStep env now p i fresh).1
      (candidateStep env now p i fresh).2.1
      hstep.1 hstep.2.1 hstep.2.2.1
      (fun j hj => by
        have hji : j ≠ i := fun hh => hinotin (hh ▸ hj)
        rw [hstep.2.2.2.1 j hji]
        exact hkeys j (List.mem_cons_of_mem _ hj))
    simp only [getCandidatesLoop]
    rw [List.filterMap_cons]
    cases hsc : (candidateStep env now p i fresh).2.2 with
    | none =>
      have : (p₀.entries.get? i).bind (fun x =>
          if eligibleEntry p₀.cooldown_seconds p₀.health_check_path env now x
          then some x.base_url else none) = none := by
        rw [← hstep.2.2.2.2, hsc]
        rfl
      rw [this]
      exact htail
    | some c =>
      have : (p₀.entries.get? i).bind (fun x =>
          if eligibleEntry p₀.cooldown_seconds p₀.health_check_path env now x
          then some x.base_url else none) = some c.2 := by
        rw [← hstep.2.2.2.2, hsc]
        rfl
      rw [this]
      exact ⟨htail.1, by simp only [List.map_cons, htail.2]⟩



lemma range_filterMap_get {α β : Type} :
    ∀ (l : List α) (f : α → Option β),
      (List.range l.length).filterMap (fun j => (l.get? j).bind f) = l.filterMap f := by
  intro l
  induction l with
  | nil => intro f; rfl
  | cons x rest ih =>
    intro f
    rw [List.length_cons, List.range_succ_eq_map, List.filterMap_cons, List.filterMap_map,
      List.filterMap_cons]
    have hcomp : ((fun j => ((x :: rest).get? j).bind f) ∘ Nat.succ) =
        (fun j => (rest.get? j).bind f) := by
      funext j
      simp [Function.comp]
    cases hfx : f x with
    | none =>
      simp only [List.get?_cons_zero, Option.some_bind, hfx, hcomp, ih f]
    | some b =>
      simp only [List.get?_cons_zero, Option.some_bind, hfx, hcomp, ih f]

lemma filterMap_if_eq_filter_map {α β : Type} (q : α → Bool) (g : α → β) :
    ∀ l : List α,
      l.filterMap (fun x => if q x then some (g x) else none) = (l.filter q).map g := by
  intro l
  induction l with
  | nil => rfl
  | cons x rest ih =>
    by_cases hq : q x = true
    · simp [List.filterMap_cons, List.filter_cons, hq, ih]
    · simp [List.filterMap_cons, List.filter_cons, hq, ih,
        Bool.eq_false_iff.mpr hq]




/-- C5: for every pool state with at least one configured node (and
pairwise-distinct node URLs, as pool construction guarantees by
deduplication), `get_candidates` never returns an empty list: each configured
node is selected unless it is in cooldown or (with a health-check path
configured and a stale failure mark) its probe fails, in priority order; and
when every node would be excluded the primary (`entries[0]`) is
force-included, so every call gets at least one attempt. -/
theorem claim_C5_candidates_nonempty (p : NodePool) (env : String → ProbeOutcome) (now : ℚ) (fresh : Nat)
    (e₀ : NodeEntry) (hhead : p.entries.head? = some e₀)
    (hnodup : (p.entries.map NodeEntry.base_url).Nodup) :
    (p.get_candidates env now fresh).2.2 ≠ [] ∧
    ((p.get_candidates env now fresh).2.2.map Prod.snd =
      if p.entries.filter (eligibleEntry p.cooldown_seconds p.health_check_path env now) = []
      then [e₀.base_url]
      else (p.entries.filter
        (eligibleEntry p.cooldown_seconds p.health_check_path env now)).map
          NodeEntry.base_url) := by
  have hchar := getCandidatesLoop_char env now p hnodup (List.range p.entries.length)
    (List.nodup_range _) p fresh rfl rfl rfl (fun j _ => rfl)
  have hsnd : (getCandidatesLoop env now (List.range p.entries.length) p fresh).2.2.map
      Prod.snd = (p.entries.filter
        (eligibleEntry p.cooldown_seconds p.health_check_path env now)).map
          NodeEntry.base_url := by
    rw [hchar.2, range_filterMap_get, filterMap_if_eq_filter_map]
  unfold NodePool.get_candidates
  dsimp only
  set L := getCandidatesLoop env now (List.range p.entries.length) p fresh with hLdef
  by_cases hemp : L.2.2 = []
  · have hfilter : p.entries.filter
        (eligibleEntry p.cooldown_seconds p.health_check_path env now) = [] := by
      have hx := hsnd
      rw [hemp] at hx
      simp only [List.map_nil] at hx
      exact List.map_eq_nil.mp hx.symm
    rw [if_pos hfilter, hemp]
    cases hPL : p.entries with
    | nil => rw [hPL] at hhead; simp at hhead
    | cons pe pt =>
      have he₀ : e₀ = pe := by
        rw [hPL] at hhead
        simp only [List.head?_cons, Option.some.injEq] at hhead
        exact hhead.symm
      subst he₀
      cases hLL : L.1.entries with
      | nil =>
        exfalso
        have hx := hchar.1
        rw [hLL, hPL] at hx
        simp at hx
      | cons a t =>
        have haurl : a.base_url = e₀.base_url := by
          have hx := hchar.1
          rw [hLL, hPL] at hx
          simp only [List.map_cons, List.cons.injEq] at hx
          exact hx.1
        simp only [List.isEmpty_nil, List.isEmpty_cons, Bool.not_false, Bool.true_and,
          if_pos rfl, List.get?_cons_zero]
        cases hcl : a.client with
        | none => exact ⟨by simp, by simp [haurl]⟩
        | some hdl => exact ⟨by simp, by simp [haurl]⟩
  · have hfne : p.entries.filter
        (eligibleEntry p.cooldown_seconds p.health_check_path env now) ≠ [] := by
      intro hcontr
      apply hemp
      have hx := hsnd
      rw [hcontr] at hx
      simp only [List.map_nil] at hx
      exact List.map_eq_nil.mp hx
    rw [if_neg hfne]
    have hempb : L.2.2.isEmpty = false := by
      cases hc : L.2.2 with
      | nil => exact absurd hc hemp
      | cons x xs => simp
    rw [hempb]
    simp only [Bool.false_and, if_neg Bool.false_ne_true]
    exact ⟨hemp, hsnd⟩

/-- Witness for C5: a single node freshly marked failed (hence in cooldown at
`now = 10` with a 30-second window) is still force-included as the only
candidate. -/
theorem claim_C5_candidates_nonempty_witness :
    (NodePool.get_candidates ⟨[⟨"http://a", none, some 0, none⟩], 30, some "http://a", none⟩
        (fun _ => ProbeOutcome.transportError) 10 0).2.2 ≠ [] ∧
    ((NodePool.get_candidates ⟨[⟨"http://a", none, some 0, none⟩], 30, some "http://a", none⟩
        (fun _ => ProbeOutcome.transportError) 10 0).2.2.map Prod.snd =
      if List.filter
          (eligibleEntry (30 : ℚ) none (fun _ => ProbeOutcome.transportError) 10)
          [⟨"http://a", none, some 0, none⟩] = []
      then [(⟨"http://a", none, some 0, none⟩ : NodeEntry).base_url]
      else (List.filter
          (eligibleEntry (30 : ℚ) none (fun _ => ProbeOutcome.transportError) 10)
          [⟨"http://a", none, some 0, none⟩]).map NodeEntry.base_url) :=
  claim_C5_candidates_nonempty
    ⟨[⟨"http://a", none, some 0, none⟩], 30, some "http://a", none⟩
    (fun _ => ProbeOutcome.transportError) 10 0 ⟨"http://a", none, some 0, none⟩
    rfl (by simp)

end QortalMcp
